import Mathlib

/-!
Shallow embedding of the sensitive-word monitor plugin
(`src/main.py`, `src/db_manager.py`).

Times are modeled as integers (seconds for the rate limiter and cache,
day numbers for calendar dates).  Python `datetime.now()` is passed in
explicitly as a parameter.  Storage faults are injected through explicit
boolean parameters exactly at the statements that can raise.
-/

/-! ## APIRateLimiter (`src/main.py` lines 62-131) -/

structure RL where
  maxPerMinute : Nat
  maxPerHour : Nat
  minuteCalls : List Int
  hourCalls : List Int
  cooldownUntil : Option Int
deriving DecidableEq

def mkRL (maxMin maxHour : Nat) : RL :=
  ⟨maxMin, maxHour, [], [], none⟩

/-- Window-pruning and capacity checks of `can_make_call`, reached when no
cooldown is active.  Mirrors lines 82-98 of `src/main.py`: prune both lists
(`t > now - 60`, `t > now - 3600`), deny with the wait until the oldest entry
of the binding window expires, else permit.  `self.minute_calls[0]` on an
empty list raises IndexError; that is modeled by the `none` result. -/
def cmcWindows (now : Int) (st : RL) : Option (Bool × Int) × RL :=
  let m := st.minuteCalls.filter (fun x => now - 60 < x)
  let h := st.hourCalls.filter (fun x => now - 3600 < x)
  let res : Option (Bool × Int) :=
    if st.maxPerMinute ≤ m.length then
      match m.head? with
      | some o => some (false, 60 - (now - o))
      | none => none
    else if st.maxPerHour ≤ h.length then
      match h.head? with
      | some o => some (false, 3600 - (now - o))
      | none => none
    else
      some (true, 0)
  (res, { st with minuteCalls := m, hourCalls := h })

/-- `APIRateLimiter.can_make_call` (`src/main.py` lines 73-98).  Returns
`(permitted, secondsToWait)` and the mutated limiter (the pruning writes
back to `self.minute_calls` / `self.hour_calls`).  The cooldown check
(`if self.cooldown_until and now < self.cooldown_until`) returns before any
pruning happens. -/
def can_make_call (now : Int) (st : RL) : Option (Bool × Int) × RL :=
  match st.cooldownUntil with
  | some c => if now < c then (some (false, c - now), st) else cmcWindows now st
  | none => cmcWindows now st

/-- `APIRateLimiter.record_call` (`src/main.py` lines 100-112): on success
append `now` to both windows and clear the cooldown; on failure set a
30-second cooldown. -/
def record_call (success : Bool) (now : Int) (st : RL) : RL :=
  if success then
    { st with minuteCalls := st.minuteCalls ++ [now],
              hourCalls := st.hourCalls ++ [now],
              cooldownUntil := none }
  else
    { st with cooldownUntil := some (now + 30) }

/-- A sequence of `record_call(success=True)` invocations at the given times. -/
def recordSuccessRuns (ts : List Int) (st : RL) : RL :=
  ts.foldl (fun s x => record_call true x s) st

/-! ## Text model for MessageContentCache

Characters are abstracted just enough to speak about case and whitespace:
a letter carries an identity and a case flag, whitespace is a single kind,
anything else carries an identity. -/

inductive MChar
  | letter : Nat → Bool → MChar
  | space : MChar
  | other : Nat → MChar
deriving DecidableEq

/-- Python `str.lower()` on one character: letters lose their upper-case
flag, everything else is unchanged. -/
def toLowerC : MChar → MChar
  | .letter i _ => .letter i false
  | c => c

def isSpaceC : MChar → Bool
  | .space => true
  | _ => false

/-- Python `str.strip()`: drop leading and trailing whitespace. -/
def stripText (l : List MChar) : List MChar :=
  ((l.dropWhile isSpaceC).reverse.dropWhile isSpaceC).reverse

/-- The normalisation inside `MessageContentCache._generate_key`
(`src/main.py` line 146): `text.strip().lower()`. -/
def normalizeText (l : List MChar) : List MChar :=
  (stripText l).map toLowerC

/-- `MessageContentCache._generate_key` (`src/main.py` lines 143-147).
The md5 digest of the normalised text is modeled by the normalised text
itself: the digest is a deterministic function of it, keys are only ever
compared for equality, and no claim depends on hash collisions. -/
def generate_key (text : List MChar) : List MChar :=
  normalizeText text

/-- The two characters are the same up to letter case. -/
def charCaseVar : MChar → MChar → Bool
  | .letter i _, .letter j _ => i == j
  | .space, .space => true
  | .other i, .other j => i == j
  | _, _ => false

/-- Pointwise case-variance of two texts. -/
def caseVariantL : List MChar → List MChar → Bool
  | [], [] => true
  | x :: xs, y :: ys => charCaseVar x y && caseVariantL xs ys
  | _, _ => false

/-! ## MessageContentCache (`src/main.py` lines 134-207) -/

/-- Result dictionary returned by the sensitive-word API
(fields read by the plugin: `status`, `forbidden_words`, `original_text`). -/
structure ApiResult where
  status : String
  forbidden_words : List String
  original_text : String
deriving DecidableEq

structure CEntry where
  result : ApiResult
  timestamp : Int
deriving DecidableEq

/-- The cache dictionary `self.cache : key -> (result, timestamp)` is an
insertion-ordered association list, matching a Python dict: assigning to an
existing key keeps its position, a new key is appended. -/
structure MCCache where
  cache_ttl : Int
  max_cache_size : Nat
  entries : List (List MChar × CEntry)
deriving DecidableEq

def assocFind (k : List MChar) : List (List MChar × CEntry) → Option CEntry
  | [] => none
  | (k', e) :: rest => if k' = k then some e else assocFind k rest

def assocSet (k : List MChar) (e : CEntry) :
    List (List MChar × CEntry) → List (List MChar × CEntry)
  | [] => [(k, e)]
  | (k', e') :: rest =>
    if k' = k then (k, e) :: rest else (k', e') :: assocSet k e rest

def assocErase (k : List MChar) :
    List (List MChar × CEntry) → List (List MChar × CEntry)
  | [] => []
  | (k', e') :: rest => if k' = k then rest else (k', e') :: assocErase k rest

/-- Stable insertion keeping ascending timestamps.  `p` comes from earlier
in the original list than everything in the (already sorted) tail, so it is
placed before the first element whose timestamp is not strictly smaller:
equal timestamps keep their original relative order, like Python's stable
`list.sort`. -/
def insertByTs (p : List MChar × CEntry) :
    List (List MChar × CEntry) → List (List MChar × CEntry)
  | [] => [p]
  | q :: rest =>
    if q.2.timestamp < p.2.timestamp then q :: insertByTs p rest
    else p :: q :: rest

def sortByTs : List (List MChar × CEntry) → List (List MChar × CEntry)
  | [] => []
  | p :: rest => insertByTs p (sortByTs rest)

/-- `MessageContentCache._cleanup` (`src/main.py` lines 175-196): drop the
entries with `current_time - timestamp > cache_ttl`, then if the cache still
exceeds `max_cache_size` delete the oldest-by-timestamp surplus entries by
key. -/
def cleanupCache (now : Int) (c : MCCache) : MCCache :=
  let kept := c.entries.filter (fun p => now - p.2.timestamp ≤ c.cache_ttl)
  if c.max_cache_size < kept.length then
    let sorted := sortByTs kept
    let removeKeys := (sorted.take (kept.length - c.max_cache_size)).map (fun p => p.1)
    { c with entries := kept.filter (fun p => ¬ removeKeys.contains p.1) }
  else
    { c with entries := kept }

/-- `MessageContentCache.get_cached_result` (`src/main.py` lines 149-164):
return the entry only when `now - timestamp < cache_ttl`; delete an expired
entry and miss.  On a hit the code re-assigns the identical `(result,
timestamp)` pair to the key, which leaves the dict unchanged, so the state
is returned as-is. -/
def get_cached_result (now : Int) (text : List MChar) (c : MCCache) :
    Option ApiResult × MCCache :=
  let k := generate_key text
  match assocFind k c.entries with
  | some e =>
    if now - e.timestamp < c.cache_ttl then (some e.result, c)
    else (none, { c with entries := assocErase k c.entries })
  | none => (none, c)

/-- `MessageContentCache.set_cached_result` (`src/main.py` lines 166-173):
store `(result, now)` under the key, then run `_cleanup`. -/
def set_cached_result (now : Int) (text : List MChar) (r : ApiResult)
    (c : MCCache) : MCCache :=
  let k := generate_key text
  cleanupCache now { c with entries := assocSet k ⟨r, now⟩ c.entries }

/-! ## Violation database (`violations` table, `src/main.py` lines 570-751)

The table's only uniqueness constraint is the auto-increment `id`
(`id INTEGER PRIMARY KEY AUTOINCREMENT`); `group_id, user_id` are plain
columns with non-unique indexes. -/

structure Row where
  rowid : Nat
  group_id : String
  user_id : String
  user_name : String
  violation_count : Int
  forbidden_words : List String
  original_text : String
  ban_duration : Int
  last_violation_date : Int
  created_at : Int
deriving DecidableEq

structure DB where
  rows : List Row
  nextId : Nat
deriving DecidableEq

def dbEmpty : DB := ⟨[], 0⟩

/-- Python `datetime.now()`: the calendar date as a day number plus the
wall-clock hour. -/
structure PyDateTime where
  day : Int
  hour : Int
deriving DecidableEq

/-- Rows matching `WHERE group_id = ? AND user_id = ?`, in rowid
(insertion) order. -/
def rowsFor (g u : String) (st : DB) : List Row :=
  st.rows.filter (fun r => r.group_id == g && r.user_id == u)

/-- Keep the accumulated candidate unless the next row's date is strictly
larger: among rows sharing the maximal date, the first-inserted one wins. -/
def pickLatest (a b : Row) : Row :=
  if a.last_violation_date < b.last_violation_date then b else a

def latestStep (acc : Option Row) (r : Row) : Option Row :=
  match acc with
  | none => some r
  | some a => some (pickLatest a r)

/-- The row returned by
`SELECT ... ORDER BY last_violation_date DESC LIMIT 1` for the pair.
The SQL has no secondary ORDER BY key, so a tie among rows sharing the
maximal `last_violation_date` is resolved by the serving index
`idx_group_user_date(group_id, user_id, last_violation_date DESC)`, whose
scan orders equal dates by ascending rowid: the oldest (first-inserted)
such row is returned.  The fold keeps the current candidate on equal dates,
so it yields exactly that first-inserted maximal-date row. -/
def latestRowFor (g u : String) (st : DB) : Option Row :=
  (rowsFor g u st).foldl latestStep none

/-- `SensitiveWordMonitor.get_violation_info` (`src/main.py` lines 664-705).
Returns `(tier for the new violation, date)`.  The code computes
`reset_datetime` from `self.reset_time` (lines 672-675) but never uses it:
the stored date is compared against the plain calendar date `now.date()`.
The dead computation is kept here as `_reset_day`. -/
def get_violation_info (resetTime : Int) (now : PyDateTime)
    (g u : String) (st : DB) : Int × Int :=
  let _reset_day : Int := if now.hour < resetTime then now.day - 1 else now.day
  match latestRowFor g u st with
  | some r =>
    if r.last_violation_date < now.day then (1, now.day)
    else (r.violation_count + 1, r.last_violation_date)
  | none => (1, now.day)

/-- `SensitiveWordMonitor.update_violation_record` (`src/main.py` lines
707-751).  The `INSERT OR REPLACE` can only conflict on the auto-assigned
`id`, which is fresh, so it always inserts a new row.  Then the piggybacked
retention cleanup deletes every row with
`last_violation_date < today - max_log_days`, and the transaction commits.
All three statements sit in one `try`; `cleanupFault := true` injects a
failure into the DELETE, in which case the `except` branch logs, rolls the
transaction back (the INSERT included) and re-raises. -/
def update_violation_record (maxLogDays : Nat) (now : PyDateTime)
    (g u name : String) (count : Int) (words : List String) (text : String)
    (dur : Int) (cleanupFault : Bool) (st : DB) : Except Unit DB :=
  let newRow : Row :=
    { rowid := st.nextId, group_id := g, user_id := u, user_name := name,
      violation_count := count, forbidden_words := words,
      original_text := text.take 500, ban_duration := dur,
      last_violation_date := now.day, created_at := now.day }
  let pending : DB := ⟨st.rows ++ [newRow], st.nextId + 1⟩
  if cleanupFault then Except.error ()
  else
    let cutoff : Int := now.day - (maxLogDays : Int)
    Except.ok ⟨pending.rows.filter (fun r => ¬ r.last_violation_date < cutoff),
               pending.nextId⟩

/-- The database the caller observes after the write: the new state on
commit, the old state after a rollback (the raised exception propagates). -/
def appliedDB (st : DB) (r : Except Unit DB) : DB :=
  match r with
  | .ok st' => st'
  | .error _ => st

/-- One full violation recording as `monitor_group_message` performs it
(`src/main.py` lines 954 and 978): read the tier with `get_violation_info`,
then persist it with `update_violation_record`.  The two calls are separate
awaited database operations with further suspension points between them. -/
def recordFlow (resetTime : Int) (maxLogDays : Nat) (now : PyDateTime)
    (g u name : String) (words : List String) (text : String) (dur : Int)
    (st : DB) : Int × DB :=
  let tier := (get_violation_info resetTime now g u st).1
  (tier, appliedDB st
    (update_violation_record maxLogDays now g u name tier words text dur false st))

/-! ## Spec-side definitions (for comparison with the code)

These two definitions follow the wording of spec section 4.6 and are used
only to exhibit where the code diverges from it. -/

/-- The spec's violation-day of a wall-clock instant: if the current hour is
before the reset hour the day rolls back to the previous calendar date. -/
def specRolledToday (resetTime : Int) (now : PyDateTime) : Int :=
  if now.hour < resetTime then now.day - 1 else now.day

/-- The spec's tier rule: compare the stored date with the rolled today;
strictly older restarts at tier 1, otherwise increment. -/
def specNextTier (resetTime : Int) (now : PyDateTime)
    (stored : Option (Int × Int)) : Int :=
  match stored with
  | none => 1
  | some (count, lastDay) =>
    if lastDay < specRolledToday resetTime now then 1 else count + 1

/-! ## SensitiveWordAPIClient.check_text (`src/main.py` lines 330-387) -/

/-- The network phase of `check_text`: the retry-managed API request is
abstracted by its outcome `net` (`some r` when some attempt succeeded with
result `r`, `none` when all retries failed or the request raised).  On
success the limiter records a success and a `"forbidden"` result is cached;
on failure the limiter records a failure. -/
def apiPhase (now : Int) (text : List MChar) (net : Option ApiResult)
    (cache : MCCache) (rl : RL) : Option ApiResult × Bool × MCCache × RL :=
  match net with
  | some r =>
    let rl' := record_call true now rl
    let cache' :=
      if r.status == "forbidden" then set_cached_result now text r cache
      else cache
    (some r, true, cache', rl')
  | none => (none, true, cache, record_call false now rl)

/-- `SensitiveWordAPIClient.check_text`.  Returns
`(result, networkCallPerformed, cache, limiter)`.  Cache hit returns
immediately; a rate-limit denial with a wait above 5 seconds returns `None`
without calling the API; a denial with a short wait sleeps and then
proceeds to the API call (the code does not re-check the limiter after the
sleep).  A limiter IndexError propagates to `check_sensitive_words`, whose
`except` returns `None` with no API call performed. -/
def check_text (now : Int) (text : List MChar) (net : Option ApiResult)
    (cache : MCCache) (rl : RL) : Option ApiResult × Bool × MCCache × RL :=
  match get_cached_result now text cache with
  | (some r, cache') => (some r, false, cache', rl)
  | (none, cache') =>
    match can_make_call now rl with
    | (none, rl') => (none, false, cache', rl')
    | (some (canCall, wait), rl') =>
      if canCall then apiPhase now text net cache' rl'
      else if 5 < wait then (none, false, cache', rl')
      else apiPhase now text net cache' rl'

/-- How `monitor_group_message` (`src/main.py` lines 1021-1099) dispatches
on the API result: a `"forbidden"` status triggers the punishment path,
`None` takes the degradation branch (log a warning, take no action), and
any other result is counted as a clean check. -/
inductive MsgDisposition
  | punished
  | degraded
  | cleanStats
deriving DecidableEq

def monitor_dispatch (res : Option ApiResult) : MsgDisposition :=
  match res with
  | some r => if r.status == "forbidden" then .punished else .cleanStats
  | none => .degraded

/-! ## Shared concrete fixtures -/

/-- A stored violation row for pair ("g","u") with the given count and date. -/
def mkStoredRow (count date : Int) : Row :=
  { rowid := 0, group_id := "g", user_id := "u", user_name := "n",
    violation_count := count, forbidden_words := [], original_text := "t",
    ban_duration := 60, last_violation_date := date, created_at := date }

/-- One committed `update_violation_record` for pair ("g","u") at noon of
day 10 with the given tier. -/
def c1Step (count : Int) (st : DB) : DB :=
  appliedDB st (update_violation_record 30 ⟨10, 12⟩ "g" "u" "n" count [] "t" 60 false st)

/-! ## C1 -/

/-- C1 (counterexample): the claim says the store keeps at most one current
row per (group_id, user_id), each new violation replacing the prior row.
On the code, after two `update_violation_record` calls for the pair
("g","u") the store holds two rows for that pair: the table's only
uniqueness constraint is the auto-increment id, so `INSERT OR REPLACE`
never replaces. -/
theorem two_updates_leave_two_rows :
    (rowsFor "g" "u" (c1Step 2 (c1Step 1 dbEmpty))).length = 2 ∧
    ¬ (rowsFor "g" "u" (c1Step 2 (c1Step 1 dbEmpty))).length ≤ 1 := by
  decide

/-- C1 (amended): each `update_violation_record` call appends exactly one
new row for the pair — it never replaces the prior one — and the
piggybacked cleanup deletes exactly the rows whose `last_violation_date`
lies strictly before the retention cutoff.  Escalation history therefore
accumulates as separate rows. -/
theorem update_violation_record_appends_row
    (maxLogDays : Nat) (now : PyDateTime) (g u name : String) (count : Int)
    (words : List String) (text : String) (dur : Int) (st : DB) :
    ∃ st', update_violation_record maxLogDays now g u name count words text dur
        false st = Except.ok st'
      ∧ rowsFor g u st' =
          (rowsFor g u st).filter
              (fun r => ¬ r.last_violation_date < now.day - (maxLogDays : Int))
            ++ [⟨st.nextId, g, u, name, count, words, text.take 500, dur,
                 now.day, now.day⟩] := by
  refine ⟨_, rfl, ?_⟩
  have harith : ¬ (now.day < now.day - (maxLogDays : Int)) := by omega
  simp only [update_violation_record, rowsFor, List.filter_append,
    List.filter_filter]
  congr 1
  · exact List.filter_congr (fun r _ => Bool.and_comm _ _)
  · simp [List.filter_singleton, harith]

/-! ## C2 -/

/-- C2 (code bug): the claim (and the spec) say the violation day rolls
over at the configured reset hour: with reset hour 4, a violation recorded
at 03:00 of day 10 followed by a second at 05:00 of day 10 should restart
at tier 1, because the first one's violation-day rolls back to day 9.
The code computes `reset_datetime` but never uses it and stores plain
calendar dates, so the second check compares day 10 with day 10 and
escalates to tier 2, while the spec-side rule yields tier 1. -/
theorem reset_hour_ignored_in_tier_check :
    (get_violation_info 4 ⟨10, 5⟩ "g" "u" (c1Step 1 dbEmpty)).1 = 2 ∧
    specRolledToday 4 ⟨10, 3⟩ = 9 ∧
    specNextTier 4 ⟨10, 5⟩ (some (1, specRolledToday 4 ⟨10, 3⟩)) = 1 := by
  decide

/-! ## C5 -/

/-- C5 (counterexample): the claim says a failing retention cleanup never
blocks the upsert — the new row is still committed and the failure is only
logged.  On the code all three statements (INSERT, DELETE, COMMIT) share
one `try`: when the DELETE raises, the `except` branch rolls the
transaction back — losing the new row — and re-raises, so the write
returns an error and the caller-visible store contains no row. -/
theorem cleanup_failure_aborts_upsert :
    update_violation_record 30 ⟨10, 12⟩ "g" "u" "n" 1 [] "t" 60 true dbEmpty =
      Except.error () ∧
    rowsFor "g" "u"
      (appliedDB dbEmpty
        (update_violation_record 30 ⟨10, 12⟩ "g" "u" "n" 1 [] "t" 60 true dbEmpty))
      = [] :=
  ⟨rfl, rfl⟩

/-- C5 (amended): the upsert and the piggybacked cleanup form one
transaction.  A cleanup failure makes the whole write raise and roll back,
leaving the store unchanged (the new violation row is lost); on the
successful path the new row is committed. -/
theorem write_path_transaction_semantics
    (maxLogDays : Nat) (now : PyDateTime) (g u name : String) (count : Int)
    (words : List String) (text : String) (dur : Int) (st : DB) :
    (update_violation_record maxLogDays now g u name count words text dur
        true st = Except.error () ∧
      appliedDB st (update_violation_record maxLogDays now g u name count
        words text dur true st) = st) ∧
    ∃ st', update_violation_record maxLogDays now g u name count words text
        dur false st = Except.ok st' ∧
      (⟨st.nextId, g, u, name, count, words, text.take 500, dur,
         now.day, now.day⟩ : Row) ∈ st'.rows := by
  refine ⟨⟨rfl, rfl⟩, _, rfl, ?_⟩
  simp only [update_violation_record]
  rw [List.mem_filter]
  refine ⟨List.mem_append_right _ (List.mem_singleton.mpr rfl), ?_⟩
  simp

/-! ## C3 -/

/-- A store holding one prior record for ("g","u"): tier 5, day 10. -/
def c3Store : DB := ⟨[mkStoredRow 5 10], 1⟩

/-- C3 (counterexample): with reset hour 4 a stored record dated day 10 and
a new violation at 01:00 of day 11 fall on the same violation-day (the
rolled day of the new violation is 10), so the claim predicts tier
5 + 1 = 6.  The code compares plain calendar dates (10 < 11) and restarts
at tier 1. -/
theorem same_violation_day_increment_fails_at_reset_boundary :
    specRolledToday 4 ⟨11, 1⟩ = 10 ∧
    (latestRowFor "g" "u" c3Store).map (fun r => r.last_violation_date) = some 10 ∧
    (get_violation_info 4 ⟨11, 1⟩ "g" "u" c3Store).1 = 1 ∧
    (get_violation_info 4 ⟨11, 1⟩ "g" "u" c3Store).1 ≠ 5 + 1 := by
  decide

/-- The three-in-a-row scenario: three recordings for ("g","u"), all at
noon of day 10. -/
def c3Run1 : Int × DB := recordFlow 4 30 ⟨10, 12⟩ "g" "u" "n" [] "t" 60 dbEmpty
def c3Run2 : Int × DB := recordFlow 4 30 ⟨10, 12⟩ "g" "u" "n" [] "t" 600 c3Run1.2
def c3Run3 : Int × DB := recordFlow 4 30 ⟨10, 12⟩ "g" "u" "n" [] "t" 86400 c3Run2.2

/-- C3 (amended, with "violation-day" read as the plain calendar date the
code actually compares): the tier for a new violation is 1 when no record
exists for the pair, the stored count plus 1 when the read-back stored
record carries today's date, and 1 again when the stored date is strictly
earlier, regardless of the stored count.  The claimed 1, 2, 3 sequence also
fails: each recording appends a row (see C1), and from the third recording
onward the SELECT's same-date tie resolves to the oldest row (ascending
rowid under `idx_group_user_date`), whose count is 1 — so three same-day
recordings yield tiers 1, 2, 2. -/
theorem tier_rule_calendar_date :
    (∀ (resetTime : Int) (now : PyDateTime) (g u : String) (st : DB),
        latestRowFor g u st = none →
        get_violation_info resetTime now g u st = (1, now.day)) ∧
    (∀ (resetTime : Int) (now : PyDateTime) (g u : String) (st : DB) (r : Row),
        latestRowFor g u st = some r →
        r.last_violation_date = now.day →
        get_violation_info resetTime now g u st = (r.violation_count + 1, now.day)) ∧
    (∀ (resetTime : Int) (now : PyDateTime) (g u : String) (st : DB) (r : Row),
        latestRowFor g u st = some r →
        r.last_violation_date < now.day →
        get_violation_info resetTime now g u st = (1, now.day)) ∧
    (c3Run1.1, c3Run2.1, c3Run3.1) = (1, 2, 2) := by
  refine ⟨?_, ?_, ?_, by decide⟩
  · intro resetTime now g u st h
    simp [get_violation_info, h]
  · intro resetTime now g u st r h hd
    simp [get_violation_info, h, hd]
  · intro resetTime now g u st r h hd
    simp [get_violation_info, h, hd]

/-- Witness for C3's amended rule at concrete inputs. -/
theorem tier_rule_calendar_date_witness :
    get_violation_info 4 ⟨7, 2⟩ "g" "u" dbEmpty = (1, 7) ∧
    get_violation_info 4 ⟨10, 5⟩ "g" "u" (⟨[mkStoredRow 3 10], 1⟩ : DB) = (4, 10) ∧
    get_violation_info 4 ⟨12, 5⟩ "g" "u" (⟨[mkStoredRow 3 10], 1⟩ : DB) = (1, 12) := by
  refine ⟨tier_rule_calendar_date.1 4 ⟨7, 2⟩ "g" "u" dbEmpty (by decide), ?_,
    tier_rule_calendar_date.2.2.1 4 ⟨12, 5⟩ "g" "u" _ (mkStoredRow 3 10)
      (by decide) (by decide)⟩
  have h := tier_rule_calendar_date.2.1 4 ⟨10, 5⟩ "g" "u"
    (⟨[mkStoredRow 3 10], 1⟩ : DB) (mkStoredRow 3 10) (by decide) (by decide)
  simpa [mkStoredRow] using h

/-! ## C4 -/

/-- The interleaving in which both concurrent recordings read the tier
before either writes: both reads run against the same store.  Realisable in
the code because `get_violation_info` and `update_violation_record` are
separate awaited operations on separate pooled connections, with further
awaits (message deletion, role lookup, ban) between them. -/
def c4Read : Int := (get_violation_info 4 ⟨10, 12⟩ "g" "u" dbEmpty).1
def c4St1 : DB :=
  appliedDB dbEmpty
    (update_violation_record 30 ⟨10, 12⟩ "g" "u" "n" c4Read [] "t" 60 false dbEmpty)
def c4St2 : DB :=
  appliedDB c4St1
    (update_violation_record 30 ⟨10, 12⟩ "g" "u" "n" c4Read [] "t" 60 false c4St1)

/-- C4 (counterexample): the claim says two concurrent recordings for the
same pair cannot both read tier N and both write tier N + 1, and that N
concurrent same-day recordings end with stored tier N.  In the interleaving
where both tasks read before either writes, both reads return 1, both
writes store tier 1, and the final stored tier is 1, not 2. -/
theorem concurrent_recordings_lose_update :
    c4Read = 1 ∧
    (rowsFor "g" "u" c4St2).length = 2 ∧
    (latestRowFor "g" "u" c4St2).map (fun r => r.violation_count) = some 1 ∧
    ¬ (latestRowFor "g" "u" c4St2).map (fun r => r.violation_count) = some 2 := by
  decide

/-- Serialized recordings: each read-then-write completes before the next
read, all for ("g","u") at noon of day 0. -/
def serialRuns : Nat → DB
  | 0 => dbEmpty
  | n + 1 => (recordFlow 4 30 ⟨0, 12⟩ "g" "u" "n" [] "t" 60 (serialRuns n)).2

/-- The row the i-th serialized recording inserts (0-based): the first has
tier 1; every later one has tier 2, because the read before it returns the
oldest same-date row (count 1) — for the second recording that is the only
row, from the third onward it is the tie winner. -/
def serialRow (i : Nat) : Row :=
  { rowid := i, group_id := "g", user_id := "u", user_name := "n",
    violation_count := if i = 0 then (1 : Int) else 2, forbidden_words := [],
    original_text := ("t" : String).take 500, ban_duration := 60,
    last_violation_date := 0, created_at := 0 }

def expectedSerialDB (n : Nat) : DB := ⟨(List.range n).map serialRow, n⟩

lemma rowsFor_expectedSerialDB (n : Nat) :
    rowsFor "g" "u" (expectedSerialDB n) = (List.range n).map serialRow := by
  rw [rowsFor]
  apply List.filter_eq_self.mpr
  intro a ha
  rcases List.mem_map.mp ha with ⟨i, _, rfl⟩
  simp [serialRow]

/-- All rows of the serial store share `last_violation_date = 0`, so the
tied read returns the first-inserted row. -/
lemma latest_expectedSerialDB (n : Nat) :
    latestRowFor "g" "u" (expectedSerialDB (n + 1)) = some (serialRow 0) := by
  rw [latestRowFor, rowsFor_expectedSerialDB]
  induction n with
  | zero => rfl
  | succ m ih =>
    rw [List.range_succ, List.map_append, List.foldl_append, ih]
    simp [latestStep, pickLatest, serialRow]

lemma serialRuns_eq (n : Nat) : serialRuns n = expectedSerialDB n := by
  induction n with
  | zero => rfl
  | succ m ih =>
    show (recordFlow 4 30 ⟨0, 12⟩ "g" "u" "n" [] "t" 60 (serialRuns m)).2 =
      expectedSerialDB (m + 1)
    rw [ih]
    have htier : (get_violation_info 4 ⟨0, 12⟩ "g" "u" (expectedSerialDB m)).1 =
        (if m = 0 then (1 : Int) else 2) := by
      cases m with
      | zero => rfl
      | succ k =>
        simp [get_violation_info, latest_expectedSerialDB, serialRow]
    simp only [recordFlow, update_violation_record, appliedDB, htier]
    have hkeep : ∀ a ∈ (expectedSerialDB m).rows ++
        [({ rowid := (expectedSerialDB m).nextId, group_id := "g", user_id := "u",
            user_name := "n", violation_count := if m = 0 then (1 : Int) else 2,
            forbidden_words := [], original_text := ("t" : String).take 500,
            ban_duration := 60, last_violation_date := 0, created_at := 0 } : Row)],
        (decide ¬ a.last_violation_date <
          (⟨0, 12⟩ : PyDateTime).day - ((30 : Nat) : Int)) = true := by
      intro a ha
      rcases List.mem_append.mp ha with h | h
      · rcases List.mem_map.mp h with ⟨i, _, rfl⟩
        simp [serialRow]
      · rw [List.mem_singleton] at h
        subst h
        simp
    rw [List.filter_eq_self.mpr hkeep]
    have hr : List.range (m + 1) = List.range m ++ [m] := List.range_succ m
    show (⟨(List.range m).map serialRow ++ [serialRow m], m + 1⟩ : DB) =
      (⟨(List.range (m + 1)).map serialRow, m + 1⟩ : DB)
    rw [hr, List.map_append]
    rfl

lemma counts_serialRow (n : Nat) :
    (List.range (n + 1)).map (fun i => if i = 0 then (1 : Int) else 2) =
      1 :: List.replicate n 2 := by
  induction n with
  | zero => rfl
  | succ j ih =>
    rw [List.range_succ, List.map_append, ih]
    simp [List.replicate_succ']

/-- C4 (amended): the read-tier-then-write sequence is not serialized by
the code — a concurrent interleaving can lose updates — and even N serial
same-day recordings do not reach stored tier N for N ≥ 3: each recording
appends a row, so from the third onward the tied read returns the oldest
same-date row (count 1).  After N ≥ 2 serial same-day recordings the
stored counts for the pair are 1, 2, ..., 2 and a further tier read still
computes 2: the tier plateaus at 2 instead of reaching N. -/
theorem serial_recordings_plateau_at_tier_two (n : Nat) (h : 2 ≤ n) :
    (rowsFor "g" "u" (serialRuns n)).map (fun r => r.violation_count) =
      1 :: List.replicate (n - 1) 2 ∧
    (get_violation_info 4 ⟨0, 12⟩ "g" "u" (serialRuns n)).1 = 2 := by
  obtain ⟨m, rfl⟩ : ∃ m, n = m + 2 := ⟨n - 2, by omega⟩
  constructor
  · rw [serialRuns_eq, rowsFor_expectedSerialDB, List.map_map]
    have hcomp : (fun r : Row => r.violation_count) ∘ serialRow =
        fun i => if i = 0 then (1 : Int) else 2 := rfl
    rw [hcomp]
    exact counts_serialRow (m + 1)
  · rw [serialRuns_eq]
    show (get_violation_info 4 ⟨0, 12⟩ "g" "u"
      (expectedSerialDB (m + 1 + 1))).1 = 2
    simp [get_violation_info, latest_expectedSerialDB, serialRow]

/-- Witness for C4's amended claim: three serialized recordings store the
counts 1, 2, 2 and a fourth read still computes tier 2, not 4. -/
theorem serial_recordings_plateau_at_tier_two_witness :
    (rowsFor "g" "u" (serialRuns 3)).map (fun r => r.violation_count) =
      1 :: List.replicate 2 2 ∧
    (get_violation_info 4 ⟨0, 12⟩ "g" "u" (serialRuns 3)).1 = 2 :=
  serial_recordings_plateau_at_tier_two 3 (by decide)

/-! ## C6 -/

lemma caseVariantL_lower :
    ∀ (a b : List MChar), caseVariantL a b = true →
      a.map toLowerC = b.map toLowerC := by
  intro a
  induction a with
  | nil =>
    intro b h
    cases b with
    | nil => rfl
    | cons y ys => simp [caseVariantL] at h
  | cons x xs ih =>
    intro b h
    cases b with
    | nil => simp [caseVariantL] at h
    | cons y ys =>
      rw [caseVariantL, Bool.and_eq_true] at h
      rw [List.map_cons, List.map_cons, ih ys h.2]
      have hx : toLowerC x = toLowerC y := by
        cases x <;> cases y <;> simp_all [charCaseVar, toLowerC]
      rw [hx]

lemma assocSet_length_le (k : List MChar) (e : CEntry) :
    ∀ l, (assocSet k e l).length ≤ l.length + 1 := by
  intro l
  induction l with
  | nil => simp [assocSet]
  | cons q rest ih =>
    rw [assocSet]
    by_cases hq : q.1 = k
    · rw [if_pos hq]
      simp
    · rw [if_neg hq]
      simpa using Nat.succ_le_succ ih

/-- After storing `(k, e)` and filtering with a predicate that keeps the new
entry, looking up `k` finds the new entry: `assocSet` replaces the first
occurrence of `k` (all earlier keys differ from `k`) or appends, and
filtering preserves order. -/
lemma assocFind_filter_assocSet (k : List MChar) (e : CEntry)
    (p : List MChar × CEntry → Bool) (hp : p (k, e) = true) :
    ∀ l, assocFind k ((assocSet k e l).filter p) = some e := by
  intro l
  induction l with
  | nil => simp [assocSet, List.filter, hp, assocFind]
  | cons q rest ih =>
    rw [assocSet]
    by_cases hq : q.1 = k
    · rw [if_pos hq]
      simp [List.filter, hp, assocFind]
    · rw [if_neg hq]
      rw [List.filter]
      cases hpq : p q with
      | true =>
        rw [assocFind, if_neg hq]
        exact ih
      | false => exact ih

/-- C6: texts that differ only by letter case or by leading/trailing
whitespace share one cache key — `_generate_key` strips and lower-cases
before hashing — and a get after a put within the TTL (and while the cache
is below capacity, so the capacity eviction inside `_cleanup` stays idle)
returns the stored result. -/
theorem normalized_texts_share_cache_entry :
    (∀ (T1 T2 : List MChar), caseVariantL (stripText T1) (stripText T2) = true →
        generate_key T1 = generate_key T2) ∧
    (∀ (t t' : Int) (T1 T2 : List MChar) (r : ApiResult) (c : MCCache),
        caseVariantL (stripText T1) (stripText T2) = true →
        c.entries.length < c.max_cache_size →
        t ≤ t' → t' - t < c.cache_ttl →
        (get_cached_result t' T1 (set_cached_result t T2 r c)).1 = some r) := by
  have hkey : ∀ (T1 T2 : List MChar),
      caseVariantL (stripText T1) (stripText T2) = true →
      generate_key T1 = generate_key T2 := by
    intro T1 T2 h
    exact caseVariantL_lower _ _ h
  refine ⟨hkey, ?_⟩
  intro t t' T1 T2 r c hvar hfull hle httl
  have hk := hkey T1 T2 hvar
  have httl0 : (0 : Int) ≤ t' - t := by omega
  have hkeepnew : (fun q : List MChar × CEntry =>
      decide (t - q.2.timestamp ≤ c.cache_ttl)) (generate_key T2, ⟨r, t⟩) = true := by
    simp
    omega
  simp only [set_cached_result, cleanupCache]
  have hlen : ((assocSet (generate_key T2) ⟨r, t⟩ c.entries).filter
      (fun q => decide (t - q.2.timestamp ≤ c.cache_ttl))).length ≤
      c.max_cache_size := by
    calc ((assocSet (generate_key T2) ⟨r, t⟩ c.entries).filter
          (fun q => decide (t - q.2.timestamp ≤ c.cache_ttl))).length
        ≤ (assocSet (generate_key T2) ⟨r, t⟩ c.entries).length :=
          List.length_filter_le _ _
      _ ≤ c.entries.length + 1 := assocSet_length_le _ _ _
      _ ≤ c.max_cache_size := hfull
  rw [if_neg (by omega : ¬ c.max_cache_size <
    ((assocSet (generate_key T2) ⟨r, t⟩ c.entries).filter
      (fun q => decide (t - q.2.timestamp ≤ c.cache_ttl))).length)]
  simp only [get_cached_result, hk]
  rw [assocFind_filter_assocSet _ _ _ hkeepnew]
  simp [httl]

/-- Witness for C6 at a concrete input: `" a"` (lower, with leading space)
stored, `"A"` (upper, no whitespace) queried 10 seconds later. -/
theorem normalized_texts_share_cache_entry_witness :
    (get_cached_result 10 [MChar.letter 0 true]
      (set_cached_result 0 [MChar.space, MChar.letter 0 false]
        ⟨"forbidden", ["w"], "t"⟩ (⟨100, 5, []⟩ : MCCache))).1 =
      some ⟨"forbidden", ["w"], "t"⟩ :=
  normalized_texts_share_cache_entry.2 0 10 _ _ _ _ (by decide) (by decide)
    (by decide) (by decide)

/-! ## C7 -/

/-- C7: an entry whose age reaches the TTL is never returned: `get` yields
the stored result only when `now - insertedAt < ttl`, and on an expired
entry it deletes the entry and reports a miss. -/
theorem expired_entries_never_returned :
    (∀ (t : Int) (text : List MChar) (c : MCCache) (e : CEntry),
        assocFind (generate_key text) c.entries = some e →
        ¬ (t - e.timestamp < c.cache_ttl) →
        get_cached_result t text c =
          (none, { c with entries := assocErase (generate_key text) c.entries })) ∧
    (∀ (t : Int) (text : List MChar) (c : MCCache) (r : ApiResult),
        (get_cached_result t text c).1 = some r →
        ∃ e, assocFind (generate_key text) c.entries = some e ∧
          e.result = r ∧ t - e.timestamp < c.cache_ttl) := by
  constructor
  · intro t text c e h hexp
    simp only [get_cached_result, h]
    rw [if_neg hexp]
  · intro t text c r h
    simp only [get_cached_result] at h
    rcases hfind : assocFind (generate_key text) c.entries with _ | e
    · rw [hfind] at h
      simp at h
    · rw [hfind] at h
      by_cases hc : t - e.timestamp < c.cache_ttl
      · simp [hc] at h
        exact ⟨e, rfl, h, hc⟩
      · simp [hc] at h

/-- Witness for C7: an entry inserted at time 0 with TTL 10, queried at
time 10 (age exactly the TTL), is removed and missed. -/
theorem expired_entries_never_returned_witness :
    get_cached_result 10 [MChar.letter 0 false]
      (⟨10, 5, [([MChar.letter 0 false],
        ⟨⟨"forbidden", ["w"], "t"⟩, 0⟩)]⟩ : MCCache) =
      (none, (⟨10, 5, []⟩ : MCCache)) := by
  have h := expired_entries_never_returned.1 10 [MChar.letter 0 false]
    (⟨10, 5, [([MChar.letter 0 false], ⟨⟨"forbidden", ["w"], "t"⟩, 0⟩)]⟩ : MCCache)
    ⟨⟨"forbidden", ["w"], "t"⟩, 0⟩ (by decide) (by decide)
  simpa using h

/-! ## C8 -/

lemma recordSuccessRuns_eq :
    ∀ (ts m h : List Int) (N M : Nat),
      recordSuccessRuns ts ⟨N, M, m, h, none⟩ = ⟨N, M, m ++ ts, h ++ ts, none⟩ := by
  intro ts
  induction ts with
  | nil =>
    intro m h N M
    simp [recordSuccessRuns]
  | cons x xs ih =>
    intro m h N M
    have h1 : recordSuccessRuns (x :: xs) (⟨N, M, m, h, none⟩ : RL) =
        recordSuccessRuns xs ⟨N, M, m ++ [x], h ++ [x], none⟩ := rfl
    rw [h1, ih]
    simp

/-- C8: with max-per-minute set to the number of successes recorded, all of
them inside the final minute at time `t`, the next `can_make_call` at `t`
is denied with a strictly positive wait; at a time `t'` at least 60 seconds
past the oldest recorded call, `can_make_call` permits again (the hour
budget `M` not being the binding window). -/
theorem minute_window_denies_then_permits
    (M : Nat) (a : Int) (rest : List Int) (t t' : Int)
    (hM : (a :: rest).length < M)
    (hwin : ∀ x ∈ a :: rest, t - 60 < x)
    (hslide : a ≤ t' - 60) :
    (∃ w, (can_make_call t (recordSuccessRuns (a :: rest)
        (mkRL (a :: rest).length M))).1 = some (false, w) ∧ 0 < w) ∧
    (can_make_call t' (recordSuccessRuns (a :: rest)
        (mkRL (a :: rest).length M))).1 = some (true, 0) := by
  have hst : recordSuccessRuns (a :: rest) (mkRL (a :: rest).length M) =
      ⟨(a :: rest).length, M, a :: rest, a :: rest, none⟩ := by
    rw [mkRL, recordSuccessRuns_eq]
    simp
  rw [hst]
  constructor
  · have hm : (a :: rest).filter (fun x => decide (t - 60 < x)) = a :: rest :=
      List.filter_eq_self.mpr (fun x hx => decide_eq_true (hwin x hx))
    refine ⟨60 - (t - a), ?_, ?_⟩
    · show (cmcWindows t ⟨(a :: rest).length, M, a :: rest, a :: rest, none⟩).1 =
        some (false, 60 - (t - a))
      simp only [cmcWindows, hm]
      rw [if_pos (le_refl _)]
      rfl
    · have := hwin a (List.mem_cons_self a rest)
      omega
  · show (cmcWindows t' ⟨(a :: rest).length, M, a :: rest, a :: rest, none⟩).1 =
      some (true, 0)
    have hdropa : (decide (t' - 60 < a)) = false := by
      simp
      omega
    have hmlen : ((a :: rest).filter (fun x => decide (t' - 60 < x))).length <
        (a :: rest).length := by
      have h1 : (a :: rest).filter (fun x => decide (t' - 60 < x)) =
          rest.filter (fun x => decide (t' - 60 < x)) := by
        rw [List.filter_cons]
        rw [hdropa]
        simp
      rw [h1]
      have := List.length_filter_le (fun x => decide (t' - 60 < x)) rest
      simp only [List.length_cons]
      omega
    have hhlen : ((a :: rest).filter (fun x => decide (t' - 3600 < x))).length < M := by
      have := List.length_filter_le (fun x => decide (t' - 3600 < x)) (a :: rest)
      omega
    simp only [cmcWindows]
    rw [if_neg (by omega), if_neg (by omega)]

/-- Witness for C8: limiter with 2 allowed calls per minute, successes at
times 100 and 110; at time 150 the third call is denied with wait 10, at
time 161 it is permitted. -/
theorem minute_window_denies_then_permits_witness :
    (∃ w, (can_make_call 150 (recordSuccessRuns [100, 110]
        (mkRL 2 1000))).1 = some (false, w) ∧ 0 < w) ∧
    (can_make_call 161 (recordSuccessRuns [100, 110]
        (mkRL 2 1000))).1 = some (true, 0) :=
  minute_window_denies_then_permits 1000 100 [110] 150 161
    (by decide) (by decide) (by decide)

/-! ## C10 -/

lemma filter_Int_idem (p : Int → Bool) (l : List Int) :
    (l.filter p).filter p = l.filter p :=
  List.filter_eq_self.mpr (fun _ ha => (List.mem_filter.mp ha).2)

lemma cmcWindows_stable (t : Int) (st : RL) :
    cmcWindows t (cmcWindows t st).2 = cmcWindows t st := by
  obtain ⟨N, M, m, h, cd⟩ := st
  simp only [cmcWindows]
  rw [filter_Int_idem, filter_Int_idem]

lemma can_make_call_stable (t : Int) (st : RL) :
    can_make_call t ((can_make_call t st).2) = can_make_call t st := by
  obtain ⟨N, M, m, h, cd⟩ := st
  match cd with
  | none =>
    have h3 := cmcWindows_stable t ⟨N, M, m, h, none⟩
    exact h3
  | some c =>
    by_cases hlt : t < c
    · have h1 : can_make_call t (⟨N, M, m, h, some c⟩ : RL) =
          (some (false, c - t), ⟨N, M, m, h, some c⟩) := by
        simp [can_make_call, hlt]
      rw [h1]
      exact h1
    · have h1 : can_make_call t (⟨N, M, m, h, some c⟩ : RL) =
          cmcWindows t ⟨N, M, m, h, some c⟩ := by
        simp [can_make_call, hlt]
      rw [h1]
      have h2 : can_make_call t ((cmcWindows t (⟨N, M, m, h, some c⟩ : RL)).2) =
          cmcWindows t ((cmcWindows t (⟨N, M, m, h, some c⟩ : RL)).2) := by
        simp [can_make_call, cmcWindows, hlt]
      rw [h2]
      exact cmcWindows_stable t ⟨N, M, m, h, some c⟩

/-- C10: checking the limiter consumes no budget.  `can_make_call` never
touches the cooldown, only removes timestamps that already lie outside
their window (and removes them exactly when outside), is idempotent at a
fixed instant — repeated checks return the same result and state — and
`record_call(success=False)` adds nothing to either window. -/
theorem can_make_call_consumes_no_budget (t : Int) (st : RL) :
    (can_make_call t st).2.cooldownUntil = st.cooldownUntil ∧
    List.Sublist (can_make_call t st).2.minuteCalls st.minuteCalls ∧
    List.Sublist (can_make_call t st).2.hourCalls st.hourCalls ∧
    (∀ x ∈ st.minuteCalls, x ∉ (can_make_call t st).2.minuteCalls → x ≤ t - 60) ∧
    (∀ x ∈ st.hourCalls, x ∉ (can_make_call t st).2.hourCalls → x ≤ t - 3600) ∧
    can_make_call t ((can_make_call t st).2) = can_make_call t st ∧
    (record_call false t st).minuteCalls = st.minuteCalls ∧
    (record_call false t st).hourCalls = st.hourCalls := by
  have hsplit : (can_make_call t st).2 = st ∨
      (can_make_call t st).2 = { st with
        minuteCalls := st.minuteCalls.filter (fun x => decide (t - 60 < x)),
        hourCalls := st.hourCalls.filter (fun x => decide (t - 3600 < x)) } := by
    obtain ⟨N, M, m, h, cd⟩ := st
    match cd with
    | none => exact Or.inr rfl
    | some c =>
      by_cases hlt : t < c
      · left
        simp [can_make_call, hlt]
      · right
        have h1 : can_make_call t (⟨N, M, m, h, some c⟩ : RL) =
            cmcWindows t ⟨N, M, m, h, some c⟩ := by
          simp [can_make_call, hlt]
        rw [h1]
        rfl
  refine ⟨?_, ?_, ?_, ?_, ?_, can_make_call_stable t st, rfl, rfl⟩
  · rcases hsplit with hs | hs <;> rw [hs]
  · rcases hsplit with hs | hs
    · simp only [hs]
      exact List.Sublist.refl _
    · simp only [hs]
      exact List.filter_sublist _
  · rcases hsplit with hs | hs
    · simp only [hs]
      exact List.Sublist.refl _
    · simp only [hs]
      exact List.filter_sublist _
  · intro x hx hnx
    rcases hsplit with hs | hs <;> rw [hs] at hnx
    · exact absurd hx hnx
    · by_contra hgt
      exact hnx (List.mem_filter.mpr ⟨hx, decide_eq_true (by omega)⟩)
  · intro x hx hnx
    rcases hsplit with hs | hs <;> rw [hs] at hnx
    · exact absurd hx hnx
    · by_contra hgt
      exact hnx (List.mem_filter.mpr ⟨hx, decide_eq_true (by omega)⟩)

/-- Witness for C10: repeating the check at the same instant returns the
identical result and state. -/
theorem can_make_call_consumes_no_budget_witness :
    can_make_call 150 ((can_make_call 150 (recordSuccessRuns [100]
      (mkRL 5 10))).2) = can_make_call 150 (recordSuccessRuns [100] (mkRL 5 10)) :=
  (can_make_call_consumes_no_budget 150
    (recordSuccessRuns [100] (mkRL 5 10))).2.2.2.2.2.1

/-! ## C9 -/

/-- C9: when the rate limiter denies and the required wait exceeds the
5-second threshold, `check_text` returns None immediately: no network call
is performed (and neither limiter window gains a timestamp), and
`monitor_group_message` routes None to the degradation branch, never to the
clean-verdict branch. -/
theorem long_wait_returns_unknown_without_call
    (now : Int) (text : List MChar) (net : Option ApiResult)
    (cache : MCCache) (rl : RL) (w : Int)
    (hmiss : (get_cached_result now text cache).1 = none)
    (hdeny : (can_make_call now rl).1 = some (false, w))
    (hw : 5 < w) :
    (check_text now text net cache rl).1 = none ∧
    (check_text now text net cache rl).2.1 = false ∧
    monitor_dispatch (check_text now text net cache rl).1 =
      MsgDisposition.degraded ∧
    MsgDisposition.degraded ≠ MsgDisposition.cleanStats := by
  have hc : get_cached_result now text cache =
      (none, (get_cached_result now text cache).2) := Prod.ext hmiss rfl
  have hr : can_make_call now rl =
      (some (false, w), (can_make_call now rl).2) := Prod.ext hdeny rfl
  have hct : check_text now text net cache rl =
      (none, false, (get_cached_result now text cache).2,
        (can_make_call now rl).2) := by
    rw [check_text.eq_def, hc, hr]
    simp [hw]
  rw [hct]
  exact ⟨rfl, rfl, rfl, by decide⟩

/-- Witness for C9: empty cache, limiter in a 200-second cooldown at time
0; the check returns None with no API call. -/
theorem long_wait_returns_unknown_without_call_witness :
    (check_text 0 [MChar.letter 0 true] (some ⟨"forbidden", ["w"], "t"⟩)
      (⟨100, 5, []⟩ : MCCache) (⟨10, 100, [], [], some 200⟩ : RL)).1 = none ∧
    (check_text 0 [MChar.letter 0 true] (some ⟨"forbidden", ["w"], "t"⟩)
      (⟨100, 5, []⟩ : MCCache) (⟨10, 100, [], [], some 200⟩ : RL)).2.1 = false ∧
    monitor_dispatch (check_text 0 [MChar.letter 0 true]
      (some ⟨"forbidden", ["w"], "t"⟩) (⟨100, 5, []⟩ : MCCache)
      (⟨10, 100, [], [], some 200⟩ : RL)).1 = MsgDisposition.degraded ∧
    MsgDisposition.degraded ≠ MsgDisposition.cleanStats :=
  long_wait_returns_unknown_without_call 0 [MChar.letter 0 true]
    (some ⟨"forbidden", ["w"], "t"⟩) (⟨100, 5, []⟩ : MCCache)
    (⟨10, 100, [], [], some 200⟩ : RL) 200
    (by decide) (by decide) (by decide)
